import Mathlib

/-
Verification development for the yarlp model wrapper
(src/yarlp/model/tf_model.py and src/yarlp/model/model_factories.py).

The Python code is a thin wrapper over a computational-graph ML framework.
We shallowly embed it: the framework graph is a finite map from collection
keys to lists of nodes, graph nodes are a deep syntax of the framework ops
the wrapper creates, the session is a logged abstract evaluator, and every
fallible Python operation returns `Except PyError`.
-/

set_option autoImplicit false

namespace Yarlp

/-- Python exceptions as observed at the wrapper boundary.  Constructors
other than `frameworkError` model builtin exceptions constructed by the
repository code itself; `frameworkError` models an exception raised inside
the wrapped ML framework and propagated verbatim. -/
inductive PyError where
  | keyError (msg : String)
  | valueError (msg : String)
  | assertionError
  | indexError
  | attributeError (msg : String)
  | typeError (msg : String)
  | frameworkError (msg : String)
  deriving Repr, DecidableEq


/-- `true` exactly when the error originates inside the wrapped framework
rather than being constructed by the wrapper code. -/
def PyError.isFramework : PyError → Bool
  | .frameworkError _ => true
  | _ => false

/-- Deep syntax for the framework graph nodes that the wrapper creates.
`var` is a framework variable (with its framework-assigned name and shape);
`placeholder` a `tf.placeholder` (dtype, shape, optional op name);
`placeholderWithDefault` a `tf.placeholder_with_default`;
`assign` a `variable.assign`; `fcApp` an application of the
`fully_connected` layer (scope name, activation, inputs, num_outputs);
`constI` an integer constant; `op` any other framework op by name. -/
inductive TFNode where
  | var (vname : String) (vshape : List Nat)
  | placeholder (dtype : String) (shape : List (Option Nat)) (opname : String)
  | placeholderWithDefault (dflt : TFNode) (shape : List Nat)
  | assign (target : TFNode) (value : TFNode)
  | fcApp (scope : String) (activation : String) (inputs : TFNode) (numOutputs : Nat)
  | constI (z : Int)
  | op (opname : String) (args : List TFNode)

/-- The `.name` attribute of a node (only variables matter to the wrapper,
which uses `w.name` for trainable variables `w`). -/
def TFNode.tfname : TFNode → String
  | .var v _ => v
  | _ => ""

/-- The `.get_shape()` of a node as used by `create_weight_setter_ops`
(only called on variables). -/
def TFNode.varShape : TFNode → List Nat
  | .var _ s => s
  | _ => []

/-- Collections of a framework graph: a dict from string keys to the list
of values added under that key, in insertion order (Python dict semantics:
one entry per key, keys in insertion order). -/
abbrev Collections := List (String × List TFNode)

/-- Membership of a key in the collections dict. -/
def collContains : Collections → String → Bool
  | [], _ => false
  | (k, _) :: rest, key => if k = key then true else collContains rest key

/-- `graph.get_collection key`: the list stored under `key`, `[]` when the
key is absent (the framework returns an empty list for unknown keys). -/
def collGet : Collections → String → List TFNode
  | [], _ => []
  | (k, ns) :: rest, key => if k = key then ns else collGet rest key

/-- `graph.add_to_collection key n`: append `n` to the list under `key`,
creating the entry when absent. -/
def collAdd : Collections → String → TFNode → Collections
  | [], key, n => [(key, [n])]
  | (k, ns) :: rest, key, n =>
    if k = key then (k, ns ++ [n]) :: rest
    else (k, ns) :: collAdd rest key n

/-- The framework graph state visible to the wrapper: its collections,
whether `finalize()` has been called, and a counter the framework uses to
uniquify op scope names. -/
structure TFGraph where
  collections : Collections
  finalized : Bool
  nameCounter : Nat

def TFGraph.empty : TFGraph := ⟨[], false, 0⟩

/-- `graph.get_all_collection_keys()`. -/
def TFGraph.get_all_collection_keys (g : TFGraph) : List String :=
  g.collections.map Prod.fst

/-- The key of the framework collection `tf.GraphKeys.GLOBAL_VARIABLES`. -/
def GLOBAL_VARIABLES_KEY : String := "variables"

/-- The key of the framework collection `tf.GraphKeys.TRAINABLE_VARIABLES`. -/
def TRAINABLE_VARIABLES_KEY : String := "trainable_variables"

/-- Register a fresh variable the way the framework layers do: it is added
to both the global and the trainable variables collections. -/
def TFGraph.addTrainableVar (g : TFGraph) (w : TFNode) : TFGraph :=
  { g with collections :=
      (collAdd (collAdd g.collections GLOBAL_VARIABLES_KEY w)
        TRAINABLE_VARIABLES_KEY w) }

/-- A feed dict: placeholder nodes paired with the values fed to them. -/
abbrev FeedDict (V : Type) := List (TFNode × V)

/-- What a single `session.run` call is asked to fetch: Python passes
either one fetch or a list of fetches. -/
inductive Fetches where
  | single (n : TFNode)
  | list (ns : List TFNode)

/-- The result of a `session.run` call, shaped like its fetches. -/
inductive RunResult (V : Type) where
  | single (v : V)
  | list (vs : List V)

/-- The framework session, abstracted: `oracle` is the framework evaluation
of one fetch under a feed dict, and `log` records every `session.run` call
made through the wrapper, in order. -/
structure Session (V : Type) where
  oracle : TFNode → FeedDict V → V
  log : List (Fetches × FeedDict V)

/-- `session.run` on a single fetch. -/
def Session.runSingle {V : Type} (s : Session V) (n : TFNode) (fd : FeedDict V) :
    Session V × V :=
  ({ s with log := s.log ++ [(.single n, fd)] }, s.oracle n fd)

/-- `session.run` on a list of fetches: one call, one result per fetch. -/
def Session.runList {V : Type} (s : Session V) (ns : List TFNode) (fd : FeedDict V) :
    Session V × List V :=
  ({ s with log := s.log ++ [(.list ns, fd)] }, ns.map (fun n => s.oracle n fd))

/-! ## The `Graph` wrapper class (tf_model.py lines 9-56) -/

/-- The wrapper class `Graph`: it owns a framework graph and a session. -/
structure Graph (V : Type) where
  tfg : TFGraph
  session : Session V

/-- `Graph.__contains__`: `var_name in self._graph.get_all_collection_keys()`. -/
def Graph.containsKey {V : Type} (G : Graph V) (var_name : String) : Bool :=
  collContains G.tfg.collections var_name

/-- `Graph.__setitem__`: raise `KeyError` when the key is already present,
otherwise `add_to_collection` (which itself raises a framework
`RuntimeError` on a finalized graph). -/
def Graph.setitem {V : Type} (G : Graph V) (var_name : String) (tf_node : TFNode) :
    Except PyError (Graph V) :=
  if G.containsKey var_name then
    .error (.keyError ("\"" ++ var_name ++ "\" is already in the graph."))
  else if G.tfg.finalized then
    .error (.frameworkError "RuntimeError: Graph is finalized and cannot be modified.")
  else
    .ok { G with tfg := { G.tfg with
            collections := collAdd G.tfg.collections var_name tf_node } }

/-- `Graph.__getitem__` on a single string key: raise `KeyError` when the
key is absent, otherwise return `get_collection(key)[0]` (an `IndexError`
would escape if the stored list were empty). -/
def Graph.getitemS {V : Type} (G : Graph V) (var_name : String) :
    Except PyError TFNode :=
  if ¬ G.containsKey var_name then
    .error (.keyError ("\"" ++ var_name ++ "\" does not exist in the graph."))
  else
    match collGet G.tfg.collections var_name with
    | [] => .error .indexError
    | n :: _ => .ok n

/-- `Graph.__getitem__` on a list of keys: `[self[v] for v in var_names]`,
left to right, propagating the first failure. -/
def Graph.getitemL {V : Type} (G : Graph V) :
    List String → Except PyError (List TFNode)
  | [] => .ok []
  | v :: vs => do
    let n ← G.getitemS v
    let ns ← G.getitemL vs
    pure (n :: ns)

/-- `Graph.__call__` on a single fetch: `self._session.run(ops, feed_dict)`. -/
def Graph.callSingle {V : Type} (G : Graph V) (n : TFNode) (fd : FeedDict V) :
    Graph V × V :=
  let (s, v) := G.session.runSingle n fd
  ({ G with session := s }, v)

/-- `Graph.__call__` on a list of fetches. -/
def Graph.callList {V : Type} (G : Graph V) (ns : List TFNode) (fd : FeedDict V) :
    Graph V × List V :=
  let (s, vs) := G.session.runList ns fd
  ({ G with session := s }, vs)

/-- `Graph.GLOBAL_VARIABLES`. -/
def Graph.GLOBAL_VARIABLES {V : Type} (G : Graph V) : List TFNode :=
  collGet G.tfg.collections GLOBAL_VARIABLES_KEY

/-- `Graph.TRAINABLE_VARIABLES`. -/
def Graph.TRAINABLE_VARIABLES {V : Type} (G : Graph V) : List TFNode :=
  collGet G.tfg.collections TRAINABLE_VARIABLES_KEY

/-! ## The environment objects the wrapper reads -/

/-- A gym action space as the wrapper sees it: `n` is present exactly when
the Python object has an `n` attribute (discrete spaces); `shape`, `low`
and `high` are the array attributes used for continuous spaces. -/
structure ActionSpace where
  n : Option Nat
  shape : List Nat
  low : List Int
  high : List Int

structure ObservationSpace where
  shape : List Nat

structure Env where
  action_space : ActionSpace
  observation_space : ObservationSpace

/-! ## The `Model` wrapper class (tf_model.py lines 59-206) -/

/-- The dynamic attributes that the per-agent closures set on the model
object (`model.state`, `model.Return`, ...); `none` models an attribute
that has not been set (reading it raises `AttributeError`). -/
structure ModelAttrs where
  input_node : Option TFNode
  state : Option TFNode
  Return : Option TFNode
  action : Option TFNode
  mu : Option TFNode
  sigma : Option TFNode
  normal_dist : Option TFNode
  target_value : Option TFNode

def ModelAttrs.empty : ModelAttrs :=
  ⟨none, none, none, none, none, none, none, none⟩

/-- A network closure as passed to `add_output`: it may create variables
in the framework graph and returns the output node. -/
abbrev Network := TFGraph → TFNode → Nat → TFGraph × TFNode

/-- The `Model` wrapper class.  `V` is the type of framework values
(arrays) and `A` the type of the arguments of the update closures. -/
structure Model (V A : Type) where
  env : Env
  G : Graph V
  loss : Option TFNode
  optimizer : Option String
  optimizer_op : Option TFNode
  attrs : ModelAttrs
  build_update_feed_dict : ModelAttrs → List A → Except PyError (FeedDict V)

/-- `Model.build_update_feed`: `self.build_update_feed_dict(self, *args)`. -/
def Model.build_update_feed {V A : Type} (m : Model V A) (args : List A) :
    Except PyError (FeedDict V) :=
  m.build_update_feed_dict m.attrs args

/-- `Model.update`: assert the optimizer op is set, build the feed dict,
run `[optimizer_op, loss]` in one session call and return the loss value
(the `_, loss = ...` unpacking). -/
def Model.update {V A : Type} (m : Model V A) (args : List A) :
    Except PyError (Model V A × V) :=
  match m.optimizer_op with
  | none => .error .assertionError
  | some opt_op =>
    match m.build_update_feed args with
    | .error e => .error e
    | .ok feed_dict =>
      match m.loss with
      | none => .error (.frameworkError "TypeError: Fetch argument None has invalid type")
      | some l =>
        let (G, results) := m.G.callList [opt_op, l] feed_dict
        match results with
        | [_, loss] => .ok ({ m with G := G }, loss)
        | _ => .error (.valueError "not enough values to unpack")

/-- `Model.get_env_action_space_dimension`: `action_space.n` when that
attribute exists, otherwise `action_space.shape[0]`. -/
def Model.get_env_action_space_dimension {V A : Type} (m : Model V A) :
    Except PyError Nat :=
  match m.env.action_space.n with
  | some k => .ok k
  | none =>
    match m.env.action_space.shape with
    | [] => .error .indexError
    | d :: _ => .ok d

/-- The `Model.weights` property: `self.G.TRAINABLE_VARIABLES`. -/
def Model.weights {V A : Type} (m : Model V A) : List TFNode :=
  m.G.TRAINABLE_VARIABLES

/-- The feed-dict comprehension of the `Model.weights` setter:
`{self.G[weight_input_var: + n]: w for n, w in weights.items()}`. -/
def feedFromNames {V : Type} (G : Graph V) :
    List (String × V) → Except PyError (FeedDict V)
  | [] => .ok []
  | (n, w) :: rest => do
    let node ← G.getitemS ("weight_input_var:" ++ n)
    let fd ← feedFromNames G rest
    pure ((node, w) :: fd)

/-- The op-list comprehension of the `Model.weights` setter:
`[self.G[set_weight_op: + n] for n in weights]`. -/
def opsFromNames {V : Type} (G : Graph V) :
    List (String × V) → Except PyError (List TFNode)
  | [] => .ok []
  | (n, _) :: rest => do
    let node ← G.getitemS ("set_weight_op:" ++ n)
    let ops ← opsFromNames G rest
    pure (node :: ops)

/-- The `Model.weights` setter: build the feed dict from the
`weight_input_var:` collection, the op list from the `set_weight_op:`
collection, and run all the ops in one session call. -/
def Model.setWeightsDict {V A : Type} (m : Model V A)
    (weights : List (String × V)) : Except PyError (Model V A) := do
  let feed_dict ← feedFromNames m.G weights
  let ops ← opsFromNames m.G weights
  let (G, _) := m.G.callList ops feed_dict
  pure { m with G := G }

/-- `Model.get_weight_names`. -/
def Model.get_weight_names {V A : Type} (m : Model V A) : List String :=
  m.weights.map TFNode.tfname

/-- `Model.get_weights`: one session run over the trainable variables. -/
def Model.get_weights {V A : Type} (m : Model V A) : Model V A × List V :=
  let (G, vs) := m.G.callList m.weights []
  ({ m with G := G }, vs)

/-- `Model.set_weights`: zip the weight names with the given values and
delegate to the `weights` setter. -/
def Model.set_weights {V A : Type} (m : Model V A) (weights : List V) :
    Except PyError (Model V A) :=
  m.setWeightsDict ((m.weights.map TFNode.tfname).zip weights)

/-- The `Model.loss` setter. -/
def Model.setLoss {V A : Type} (m : Model V A) (loss : TFNode) : Model V A :=
  { m with loss := some loss }

/-- `optimizer.minimize(loss)`: a framework op built from the optimizer
and the loss node. -/
def TFOptimizer.minimize (optimizer : String) (loss : TFNode) : TFNode :=
  TFNode.op ("minimize " ++ optimizer) [loss]

/-- The `Model.optimizer` setter: store the optimizer, assert the loss is
set, and create the optimizer op via `minimize`. -/
def Model.setOptimizer {V A : Type} (m : Model V A) (optimizer : String) :
    Except PyError (Model V A) :=
  match m.loss with
  | none => .error .assertionError
  | some l =>
    .ok { m with optimizer := some optimizer,
                 optimizer_op := some (TFOptimizer.minimize optimizer l) }

/-- `Model.add_input`: create a placeholder (shape defaulting to
`(None, observation_space.shape[0])`), store it as `self.input_node` and
register it under `input: + name`. -/
def Model.add_input {V A : Type} (m : Model V A) (name : String)
    (dtype : String) (shape : Option (List (Option Nat))) :
    Except PyError (Model V A × TFNode) := do
  let shp ← match shape with
    | some s => pure s
    | none =>
      match m.env.observation_space.shape with
      | [] => Except.error PyError.indexError
      | d :: _ => pure [Option.none, some d]
  let input_node := TFNode.placeholder dtype shp ""
  let m := { m with attrs := { m.attrs with input_node := some input_node } }
  let G ← m.G.setitem ("input:" ++ name) input_node
  pure ({ m with G := G }, input_node)

/-- `Model.add_output`: default `num_outputs` to the action-space
dimension, apply the network closure to `self.input_node`, and register
the result under `output: + name`. -/
def Model.add_output {V A : Type} (m : Model V A) (network : Network)
    (num_outputs : Option Nat) (name : String) :
    Except PyError (Model V A × TFNode) := do
  let k ← match num_outputs with
    | none => m.get_env_action_space_dimension
    | some k => pure k
  let inp ← match m.attrs.input_node with
    | none => Except.error (PyError.attributeError "input_node")
    | some i => pure i
  let res := network m.G.tfg inp k
  let G ← Graph.setitem { m.G with tfg := res.1 } ("output:" ++ name) res.2
  pure ({ m with G := G }, res.2)

/-- `Model.add_output_node`: register an already-built node under
`output: + name`. -/
def Model.add_output_node {V A : Type} (m : Model V A) (node : TFNode)
    (name : String) : Except PyError (Model V A × TFNode) := do
  let G ← m.G.setitem ("output:" ++ name) node
  pure ({ m with G := G }, node)

/-- `tf.placeholder_with_default(w, w.get_shape())`: the `w_input` node of
`create_weight_setter_ops`. -/
def weightInputVar (w : TFNode) : TFNode :=
  TFNode.placeholderWithDefault w w.varShape

/-- `w.assign(w_input)`: the set-weight op of `create_weight_setter_ops`. -/
def setWeightOp (w : TFNode) : TFNode :=
  TFNode.assign w (weightInputVar w)

/-- The loop body of `create_weight_setter_ops`: for each trainable
variable `w`, register `placeholder_with_default(w, w.get_shape())` under
`weight_input_var: + w.name` and `w.assign(w_input)` under
`set_weight_op: + w.name`. -/
def weightSetterFold {V : Type} (G : Graph V) :
    List TFNode → Except PyError (Graph V)
  | [] => .ok G
  | w :: ws => do
    let w_input := weightInputVar w
    let G ← G.setitem ("weight_input_var:" ++ w.tfname) w_input
    let G ← G.setitem ("set_weight_op:" ++ w.tfname) (TFNode.assign w w_input)
    weightSetterFold G ws

/-- The collection entries that `create_weight_setter_ops` registers for a
list of trainable variables, in registration order. -/
def weightPairs : List TFNode → Collections
  | [] => []
  | w :: ws =>
    ("weight_input_var:" ++ w.tfname, [weightInputVar w]) ::
    ("set_weight_op:" ++ w.tfname, [setWeightOp w]) :: weightPairs ws

/-- `Model.create_weight_setter_ops`. -/
def Model.create_weight_setter_ops {V A : Type} (m : Model V A) :
    Except PyError (Model V A) := do
  let G ← weightSetterFold m.G m.weights
  pure { m with G := G }

/-! ## Arrays and `Model.predict` -/

/-- A minimal numpy array model: a shape and the flat data. -/
structure NDArray (α : Type) where
  shape : List Nat
  data : List α
  deriving Repr, DecidableEq

/-- `np.expand_dims(a, 0)`. -/
def NDArray.expand_dims0 {α : Type} (a : NDArray α) : NDArray α :=
  ⟨1 :: a.shape, a.data⟩

/-- `a.flatten()`: always a 1-dimensional array of the same data. -/
def NDArray.flatten {α : Type} (a : NDArray α) : NDArray α :=
  ⟨[a.data.length], a.data⟩

/-- `Model.predict`: expand 1-dimensional input to a single-row batch,
look up the output and input nodes, run the output in one session call
feeding the data to the input placeholder, and flatten the result. -/
def Model.predict {α A : Type} (m : Model (NDArray α) A) (data : NDArray α)
    (output_name : String) (input_name : String) :
    Except PyError (Model (NDArray α) A × NDArray α) := do
  let data := if data.shape.length = 1 then data.expand_dims0 else data
  let output ← m.G.getitemS output_name
  let inp ← m.G.getitemS input_name
  let feed_dict : FeedDict (NDArray α) := [(inp, data)]
  let (G, out) := m.G.callSingle output feed_dict
  pure ({ m with G := G }, out.flatten)

/-! ## `Model.__init__` and the `Graph` context manager -/

/-- Reading `self.build_update_feed_dict` before `__init__` assigns it
raises `AttributeError`. -/
def unsetBuildUpdateFeedDict {V A : Type} :
    ModelAttrs → List A → Except PyError (FeedDict V) :=
  fun _ _ => .error (.attributeError "build_update_feed_dict")

/-- `tf.variables_initializer(var_list)`. -/
def variablesInitializer (vars : List TFNode) : TFNode :=
  TFNode.op "variables_initializer" vars

/-- `Model.__init__`: store the env, create a fresh `Graph`, and inside
the graph context run `build_graph(self)`, `create_weight_setter_ops`,
and the assignment of `build_update_feed_dict`; `Graph.__exit__` then
initializes all global variables in one session run and finalizes the
graph. -/
def Model.init {V A : Type} (env : Env)
    (build_graph : Model V A → Except PyError (Model V A))
    (build_update_feed_dict : ModelAttrs → List A → Except PyError (FeedDict V))
    (oracle : TFNode → FeedDict V → V) : Except PyError (Model V A) := do
  let m0 : Model V A :=
    { env := env
      G := { tfg := TFGraph.empty, session := { oracle := oracle, log := [] } }
      loss := none
      optimizer := none
      optimizer_op := none
      attrs := ModelAttrs.empty
      build_update_feed_dict := unsetBuildUpdateFeedDict }
  let m1 ← build_graph m0
  let m2 ← m1.create_weight_setter_ops
  let m3 := { m2 with build_update_feed_dict := build_update_feed_dict }
  let (session, _) :=
    m3.G.session.runSingle (variablesInitializer m3.G.GLOBAL_VARIABLES) []
  pure { m3 with
    G := { tfg := { m3.G.tfg with finalized := true }, session := session } }

/-! ## model_factories.py: the policy gradient factory -/

/-- The last dimension of a node shape, as the layer framework reads it to
size the weight matrix of a dense layer. -/
def TFNode.lastDim : TFNode → Nat
  | .placeholder _ shape _ => (shape.getLastD none).getD 0
  | .fcApp _ _ _ k => k
  | .var _ s => s.getLastD 0
  | _ => 0

/-- `tf.contrib.layers.fully_connected` with a given activation function:
the framework creates a weight and a bias variable under a uniquified
`fully_connected` scope (added to the global and trainable variable
collections) and returns the layer output node. -/
def fully_connected (activation : String) (g : TFGraph) (inputs : TFNode)
    (num_outputs : Nat) : TFGraph × TFNode :=
  let scope := if g.nameCounter = 0 then "fully_connected"
               else "fully_connected_" ++ toString g.nameCounter
  let w := TFNode.var (scope ++ "/weights:0") [inputs.lastDim, num_outputs]
  let b := TFNode.var (scope ++ "/biases:0") [num_outputs]
  let g := { g with nameCounter := g.nameCounter + 1 }
  let g := (g.addTrainableVar w).addTrainableVar b
  (g, TFNode.fcApp scope activation inputs num_outputs)

/-- The `build_graph` closure of `policy_gradient_model_factory`: the body
of the `if action_space == discrete / elif continuous / else raise`
statement, followed by the optimizer assignment.  `network` takes the
activation function first, mirroring `partial(network, activation_fn=...)`. -/
def pg_build_graph {V A : Type} (network : String → Network)
    (learning_rate : String) (action_space : String) (m : Model V A) :
    Except PyError (Model V A) := do
  let (m, input_node) ← m.add_input "" "float32" none
  let m := { m with attrs := { m.attrs with state := some input_node } }
  let returnNode := TFNode.placeholder "float32" [Option.none] "return"
  let m := { m with attrs := { m.attrs with Return := some returnNode } }
  let m ←
    if action_space = "discrete" then do
      let (m, output_node) ← m.add_output (network "softmax") none ""
      let actionNode := TFNode.placeholder "int32" [Option.none] "action"
      let m := { m with attrs := { m.attrs with action := some actionNode } }
      let action_probability :=
        TFNode.op "gather" [TFNode.op "squeeze" [output_node], actionNode]
      let lossNode := TFNode.op "mul"
        [TFNode.op "neg" [TFNode.op "log" [action_probability]], returnNode]
      pure (m.setLoss lossNode)
    else if action_space = "continuous" then do
      let (m, mu) ← m.add_output (network "nil") none "mean"
      let m := { m with attrs := { m.attrs with mu := some mu } }
      let (m, sigma) ← m.add_output (network "nil") none "std_dev"
      let m := { m with attrs := { m.attrs with sigma := some sigma } }
      let normal := TFNode.op "Normal" [mu, sigma]
      let m := { m with attrs := { m.attrs with normal_dist := some normal } }
      let action0 := TFNode.op "squeeze" [TFNode.op "sample_1" [normal]]
      let low ← match m.env.action_space.low with
        | [] => Except.error PyError.indexError
        | z :: _ => pure z
      let high ← match m.env.action_space.high with
        | [] => Except.error PyError.indexError
        | z :: _ => pure z
      let actionNode := TFNode.op "clip_by_value"
        [action0, TFNode.constI low, TFNode.constI high]
      let m := { m with attrs := { m.attrs with action := some actionNode } }
      let (m, _) ← m.add_output_node actionNode ""
      let loss1 := TFNode.op "mul"
        [TFNode.op "neg" [TFNode.op "log_prob" [normal, actionNode]], returnNode]
      let lossNode := TFNode.op "sub"
        [loss1, TFNode.op "mul_scalar_0p1" [TFNode.op "entropy" [normal]]]
      pure (m.setLoss lossNode)
    else
      Except.error (PyError.valueError (action_space ++ " is not a valid action_space"))
  let m ← m.setOptimizer ("AdamOptimizer(" ++ learning_rate ++ ")")
  pure m

/-- The `build_update_feed_dict` closure of `policy_gradient_model_factory`:
`{model.state: np.array(np.expand_dims(state, 0)), model.Return: [return_],
model.action: [action]}` (wrapping a scalar in a one-element Python list is
a one-element leading axis, like `expand_dims`). -/
def pg_build_update_feed_dict {α : Type} (attrs : ModelAttrs)
    (args : List (NDArray α)) : Except PyError (FeedDict (NDArray α)) := do
  let (state, return_, action) ← match args with
    | [s, r, a] => pure (s, r, a)
    | _ => Except.error (PyError.typeError "build_update_feed_dict takes 4 arguments")
  let stateNode ← match attrs.state with
    | some s => pure s
    | none => Except.error (PyError.attributeError "state")
  let returnNode ← match attrs.Return with
    | some r => pure r
    | none => Except.error (PyError.attributeError "Return")
  let actionNode ← match attrs.action with
    | some a => pure a
    | none => Except.error (PyError.attributeError "action")
  pure [(stateNode, state.expand_dims0), (returnNode, return_.expand_dims0),
        (actionNode, action.expand_dims0)]

/-- `policy_gradient_model_factory`: build a `Model` from the two closures
above.  `oracle` abstracts the framework session evaluation. -/
def policy_gradient_model_factory {α : Type} (env : Env)
    (network : String → Network) (learning_rate : String)
    (action_space : String)
    (oracle : TFNode → FeedDict (NDArray α) → NDArray α) :
    Except PyError (Model (NDArray α) (NDArray α)) :=
  Model.init env (pg_build_graph network learning_rate action_space)
    pg_build_update_feed_dict oracle

/-! ## Invariants -/

/-- Every collection entry holds exactly one node (the invariant the
wrapper registry maintains for the keys it registers itself). -/
def allSingleton (c : Collections) : Bool :=
  c.all (fun p => p.2.length == 1)

/-! ## Concrete objects used to instantiate the theorems -/

def oracleZero : TFNode → FeedDict Nat → Nat := fun _ _ => 0

def sessionZero : Session Nat := { oracle := oracleZero, log := [] }

/-- A graph whose registry already holds the key `x`. -/
def graphWithX : Graph Nat :=
  { tfg := { collections := [("x", [TFNode.constI 0])], finalized := false,
             nameCounter := 0 },
    session := sessionZero }

def graphEmptyN : Graph Nat := { tfg := TFGraph.empty, session := sessionZero }

/-- `graphEmptyN` after registering `y`. -/
def graphWithY : Graph Nat :=
  { tfg := { collections := [("y", [TFNode.constI 5])], finalized := false,
             nameCounter := 0 },
    session := sessionZero }

def envTrivial : Env := ⟨⟨some 1, [], [], []⟩, ⟨[3]⟩⟩

/-- A discrete-action environment: `action_space.n = 2`, observations of
dimension 3. -/
def envDiscrete : Env := ⟨⟨some 2, [], [], []⟩, ⟨[3]⟩⟩

/-- A continuous-action environment: no `n` attribute, action shape `[1]`,
bounds `[-2]` and `[2]`, observations of dimension 3. -/
def envContinuous : Env := ⟨⟨none, [1], [-2], [2]⟩, ⟨[3]⟩⟩

def lossNode0 : TFNode := TFNode.op "loss0" []

def optOp0 : TFNode := TFNode.op "opt0" []

/-- A concrete model with an optimizer op and a loss set, for exercising
`Model.update`. -/
def modelU : Model Nat Nat :=
  { env := envTrivial
    G := graphEmptyN
    loss := some lossNode0
    optimizer := some "AdamOptimizer(0.01)"
    optimizer_op := some optOp0
    attrs := ModelAttrs.empty
    build_update_feed_dict := fun _ _ => .ok [] }

def trainVarA : TFNode := TFNode.var "a:0" [2]

def trainVarB : TFNode := TFNode.var "b:0" [3]

/-- A concrete model with two trainable variables and nothing else, for
exercising `create_weight_setter_ops` and the weight setters. -/
def modelW : Model Nat Nat :=
  { env := envTrivial
    G := { tfg := { collections := [(TRAINABLE_VARIABLES_KEY, [trainVarA, trainVarB])],
                    finalized := false, nameCounter := 0 },
           session := sessionZero }
    loss := none
    optimizer := none
    optimizer_op := none
    attrs := ModelAttrs.empty
    build_update_feed_dict := fun _ _ => .ok [] }

def inputNode0 : TFNode := TFNode.placeholder "float32" [Option.none, some 3] ""

/-- A concrete model with an input node set, for exercising `add_output`. -/
def modelO : Model Nat Nat :=
  { env := envTrivial
    G := graphEmptyN
    loss := none
    optimizer := none
    optimizer_op := none
    attrs := { ModelAttrs.empty with input_node := some inputNode0 }
    build_update_feed_dict := fun _ _ => .ok [] }

/-- A network closure returning a fixed node and leaving the graph alone. -/
def constNetwork (out : TFNode) : Network := fun g _ _ => (g, out)

def outNode0 : TFNode := TFNode.op "net_out" []

def oracleND : TFNode → FeedDict (NDArray Int) → NDArray Int :=
  fun _ _ => ⟨[2, 2], [0, 1, 2, 3]⟩

/-- A concrete model for exercising `Model.predict`: one output node and
one input placeholder registered. -/
def modelP : Model (NDArray Int) (NDArray Int) :=
  { env := envTrivial
    G := { tfg := { collections := [("output:", [outNode0]), ("input:", [inputNode0])],
                    finalized := true, nameCounter := 0 },
           session := { oracle := oracleND, log := [] } }
    loss := none
    optimizer := none
    optimizer_op := none
    attrs := ModelAttrs.empty
    build_update_feed_dict := fun _ _ => .ok [] }

/-- The graph obtained by registering `output:` on an empty graph. -/
def graphO : Graph Nat :=
  { tfg := { collections := [("output:", [outNode0])], finalized := false,
             nameCounter := 0 },
    session := sessionZero }

/-- A trivial `build_update_feed_dict` closure over `Nat` values. -/
def bufdTrivN : ModelAttrs → List Nat → Except PyError (FeedDict Nat) :=
  fun _ _ => .ok []

/-- The model state at the top of `Model.__init__` for the trivial env. -/
def modelInit0 : Model Nat Nat :=
  { env := envTrivial
    G := { tfg := TFGraph.empty, session := sessionZero }
    loss := none
    optimizer := none
    optimizer_op := none
    attrs := ModelAttrs.empty
    build_update_feed_dict := unsetBuildUpdateFeedDict }

/-- The collections of `modelW` after `create_weight_setter_ops`. -/
def modelWAfterColl : Collections :=
  [(TRAINABLE_VARIABLES_KEY, [trainVarA, trainVarB]),
   ("weight_input_var:" ++ "a:0", [weightInputVar trainVarA]),
   ("set_weight_op:" ++ "a:0", [setWeightOp trainVarA]),
   ("weight_input_var:" ++ "b:0", [weightInputVar trainVarB]),
   ("set_weight_op:" ++ "b:0", [setWeightOp trainVarB])]

/-- `modelW` after `create_weight_setter_ops`. -/
def modelWAfter : Model Nat Nat :=
  { modelW with
    G := { tfg := { collections := modelWAfterColl, finalized := false, nameCounter := 0 },
           session := sessionZero } }

/-- A one-dimensional observation sample. -/
def dataRow : NDArray Int := ⟨[3], [1, 2, 3]⟩

/-! # Lemmas about the collections dict -/

theorem collContains_collAdd (c : Collections) (key k : String) (n : TFNode) :
    collContains (collAdd c key n) k = (collContains c k || decide (key = k)) := by
  induction c with
  | nil => by_cases h : key = k <;> simp [collAdd, collContains, h]
  | cons p rest ih =>
    obtain ⟨k1, ns⟩ := p
    by_cases h1 : k1 = key
    · subst h1
      by_cases h2 : k1 = k <;> simp [collAdd, collContains, h2]
    · by_cases h2 : k1 = k
      · subst h2
        simp [collAdd, collContains, h1, ih]
      · simp [collAdd, collContains, h1, h2, ih]

theorem collGet_collAdd_self (c : Collections) (key : String) (n : TFNode) :
    collGet (collAdd c key n) key = collGet c key ++ [n] := by
  induction c with
  | nil => simp [collAdd, collGet]
  | cons p rest ih =>
    obtain ⟨k1, ns⟩ := p
    by_cases h : k1 = key <;> simp [collAdd, collGet, h, ih]

theorem collGet_collAdd_ne (c : Collections) (key k : String) (n : TFNode)
    (hne : key ≠ k) : collGet (collAdd c key n) k = collGet c k := by
  induction c with
  | nil => simp [collAdd, collGet, hne]
  | cons p rest ih =>
    obtain ⟨k1, ns⟩ := p
    by_cases h : k1 = key
    · subst h
      simp [collAdd, collGet, hne]
    · by_cases h2 : k1 = k
      · subst h2
        simp [collAdd, collGet, h, ih]
      · simp [collAdd, collGet, h, h2, ih]

theorem collGet_eq_nil_of_not_contains (c : Collections) (k : String)
    (h : collContains c k = false) : collGet c k = [] := by
  induction c with
  | nil => rfl
  | cons p rest ih =>
    obtain ⟨k1, ns⟩ := p
    by_cases h1 : k1 = k
    · simp [collContains, h1] at h
    · simp only [collContains, h1, if_false, ite_false] at h
      simp [collGet, h1, ih h]

theorem collAdd_of_not_contains (c : Collections) (key : String) (n : TFNode)
    (h : collContains c key = false) : collAdd c key n = c ++ [(key, [n])] := by
  induction c with
  | nil => rfl
  | cons p rest ih =>
    obtain ⟨k1, ns⟩ := p
    by_cases h1 : k1 = key
    · simp [collContains, h1] at h
    · simp only [collContains, h1, if_false, ite_false] at h
      simp [collAdd, h1, ih h]

theorem collContains_append (c1 c2 : Collections) (k : String) :
    collContains (c1 ++ c2) k = (collContains c1 k || collContains c2 k) := by
  induction c1 with
  | nil => simp [collContains]
  | cons p rest ih =>
    obtain ⟨k1, ns⟩ := p
    by_cases h : k1 = k <;> simp [collContains, h, ih]

theorem collGet_append (c1 c2 : Collections) (k : String) :
    collGet (c1 ++ c2) k =
      (if collContains c1 k then collGet c1 k else collGet c2 k) := by
  induction c1 with
  | nil => simp [collContains, collGet]
  | cons p rest ih =>
    obtain ⟨k1, ns⟩ := p
    by_cases h : k1 = k <;> simp [collContains, collGet, h, ih]

/-! # Lemmas about the `Graph` registry operations -/

theorem setitem_ok_elim {V : Type} (G G' : Graph V) (name : String) (node : TFNode)
    (h : G.setitem name node = .ok G') :
    G.containsKey name = false ∧ G.tfg.finalized = false ∧
      G' = { G with tfg := { G.tfg with
               collections := collAdd G.tfg.collections name node } } := by
  unfold Graph.setitem at h
  split at h
  · cases h
  · split at h
    · cases h
    · next h1 h2 =>
      cases h
      exact ⟨by simpa using h1, by simpa using h2, by simp [Bool.not_eq_true] at h2; simp [h2]⟩

theorem getitem_after_setitem {V : Type} (G G' : Graph V) (name : String)
    (node : TFNode) (h : G.setitem name node = .ok G') :
    G'.getitemS name = .ok node ∧ G'.containsKey name = true := by
  obtain ⟨hfresh, hfin, rfl⟩ := setitem_ok_elim G G' name node h
  have hfresh2 : collContains G.tfg.collections name = false := hfresh
  have hcont : collContains (collAdd G.tfg.collections name node) name = true := by
    rw [collContains_collAdd]
    simp
  have hget : collGet (collAdd G.tfg.collections name node) name = [node] := by
    rw [collGet_collAdd_self, collGet_eq_nil_of_not_contains _ _ hfresh2]
    rfl
  exact ⟨by simp [Graph.getitemS, Graph.containsKey, hcont, hget], hcont⟩

/-! # C1 -/

/-- C1 counterexample: registering an already-registered key makes the
wrapper construct and raise its own builtin `KeyError` (tf_model.py line
36), with a message the wrapper itself formats; the error reaching the
caller does not originate in the wrapped framework, refuting the claim
that every escaping exception is a framework exception re-raised
verbatim. -/
theorem setitem_raises_wrapper_constructed_error :
    graphWithX.setitem "x" (TFNode.constI 1) =
      .error (.keyError "\"x\" is already in the graph.") ∧
    PyError.isFramework (.keyError "\"x\" is already in the graph.") = false :=
  ⟨rfl, rfl⟩

/-- C1 (amended): the wrapper defines no original error taxonomy in the
sense that it introduces no new exception classes, but it does construct
builtin exceptions itself: every non-framework error produced by
`Graph.__setitem__` is the duplicate-key `KeyError` it formats itself, and
every error produced by `Graph.__getitem__` is either its missing-key
`KeyError` or the builtin `IndexError` of the `[0]` subscript; only the
remaining errors are framework exceptions propagated verbatim. -/
theorem registry_errors_are_builtin {V : Type} (G : Graph V) (name : String)
    (node : TFNode) :
    (∀ e, G.setitem name node = .error e → e.isFramework = false →
      e = .keyError ("\"" ++ name ++ "\" is already in the graph.")) ∧
    (∀ e, G.getitemS name = .error e →
      e = .keyError ("\"" ++ name ++ "\" does not exist in the graph.") ∨
        e = .indexError) := by
  constructor
  · intro e he hf
    unfold Graph.setitem at he
    split at he
    · cases he
      rfl
    · split at he
      · cases he
        simp [PyError.isFramework] at hf
      · cases he
  · intro e he
    unfold Graph.getitemS at he
    split at he
    · cases he
      left
      rfl
    · split at he
      · cases he
        right
        rfl
      · cases he

/-- C1 amended witness: the duplicate-key error at a concrete input is the
wrapper-formatted builtin `KeyError`. -/
theorem registry_errors_are_builtin_witness :
    PyError.keyError "\"x\" is already in the graph." =
      .keyError ("\"" ++ "x" ++ "\" is already in the graph.") :=
  (registry_errors_are_builtin graphWithX "x" (TFNode.constI 1)).1
    (.keyError "\"x\" is already in the graph.") rfl rfl

/-! # C2 -/

/-- C2: the registry is a string-keyed lookup: for a name not already
registered, once `Graph.__setitem__(name, node)` succeeds,
`Graph.__getitem__(name)` returns exactly that node and
`Graph.__contains__(name)` is true. -/
theorem graph_set_then_get_roundtrip {V : Type} (G G' : Graph V)
    (name : String) (node : TFNode)
    (hfresh : G.containsKey name = false)
    (hok : G.setitem name node = .ok G') :
    G'.getitemS name = .ok node ∧ G'.containsKey name = true :=
  getitem_after_setitem G G' name node hok

/-- C2 witness at a concrete registration. -/
theorem graph_set_then_get_roundtrip_witness :
    graphWithY.getitemS "y" = .ok (TFNode.constI 5) ∧
    graphWithY.containsKey "y" = true :=
  graph_set_then_get_roundtrip graphEmptyN graphWithY "y" (TFNode.constI 5)
    rfl rfl

/-! # Reduction helpers for the Except monad -/

theorem exceptBind_ok {ε α β : Type} (a : α) (f : α → Except ε β) :
    (Except.ok a >>= f) = f a := rfl

theorem exceptBind_error {ε α β : Type} (e : ε) (f : α → Except ε β) :
    ((Except.error e : Except ε α) >>= f) = Except.error e := rfl

theorem exceptPure {ε α : Type} (a : α) : (pure a : Except ε α) = Except.ok a := rfl

/-! # C7 -/

/-- C7: `Graph.__getitem__` raises its missing-key `KeyError` exactly when
the name is not registered (as decided by `Graph.__contains__`); on a list
of names it returns the individual lookups in the same order and fails
whenever some element is missing. -/
theorem getitem_missing_key_behaviour {V : Type} (G : Graph V) (name : String)
    (names : List String) (nodes : List TFNode) :
    ((∃ msg, G.getitemS name = .error (.keyError msg)) ↔
      G.containsKey name = false) ∧
    (G.getitemL names = .ok nodes →
      List.Forall₂ (fun v node => G.getitemS v = .ok node) names nodes) ∧
    ((∃ v ∈ names, G.containsKey v = false) →
      ∃ e, G.getitemL names = .error e) := by
  refine ⟨?_, ?_, ?_⟩
  · constructor
    · rintro ⟨msg, hmsg⟩
      unfold Graph.getitemS at hmsg
      split at hmsg
      · next hcond => simpa using hcond
      · split at hmsg <;> cases hmsg
    · intro hfalse
      exact ⟨"\"" ++ name ++ "\" does not exist in the graph.",
        by simp [Graph.getitemS, hfalse]⟩
  · intro hok
    induction names generalizing nodes with
    | nil =>
      cases hok
      exact List.Forall₂.nil
    | cons v vs ih =>
      unfold Graph.getitemL at hok
      cases hv : G.getitemS v with
      | error e => rw [hv, exceptBind_error] at hok; cases hok
      | ok n =>
        rw [hv, exceptBind_ok] at hok
        cases hl : G.getitemL vs with
        | error e => rw [hl, exceptBind_error] at hok; cases hok
        | ok ns =>
          rw [hl, exceptBind_ok, exceptPure] at hok
          cases hok
          exact List.Forall₂.cons hv (ih ns hl)
  · intro hmiss
    induction names with
    | nil => simp at hmiss
    | cons v vs ih =>
      cases hv : G.getitemS v with
      | error e =>
        exact ⟨e, by unfold Graph.getitemL; rw [hv, exceptBind_error]⟩
      | ok n =>
        have hvs : ∃ u ∈ vs, G.containsKey u = false := by
          obtain ⟨u, hu, huf⟩ := hmiss
          cases hu with
          | head =>
            exfalso
            unfold Graph.getitemS at hv
            rw [if_pos (by simp [huf])] at hv
            cases hv
          | tail _ hmem => exact ⟨u, hmem, huf⟩
        obtain ⟨e, he⟩ := ih hvs
        refine ⟨e, ?_⟩
        unfold Graph.getitemL
        rw [hv, exceptBind_ok, he, exceptBind_error]

/-- C7 witness: list lookup of present keys returns the individual
lookups in order; a missing element makes the list lookup fail. -/
theorem getitem_missing_key_behaviour_witness :
    List.Forall₂ (fun v node => graphWithX.getitemS v = .ok node)
      ["x"] [TFNode.constI 0] ∧
    (∃ e, graphWithX.getitemL ["x", "y"] = .error e) :=
  ⟨(getitem_missing_key_behaviour graphWithX "x" ["x"] [TFNode.constI 0]).2.1 rfl,
   (getitem_missing_key_behaviour graphWithX "x" ["x", "y"] []).2.2
     ⟨"y", by simp, rfl⟩⟩

/-! # C10 -/

theorem collGet_singleton (c : Collections) (k : String)
    (hs : allSingleton c = true) (hc : collContains c k = true) :
    ∃ n, collGet c k = [n] := by
  induction c with
  | nil => simp [collContains] at hc
  | cons p rest ih =>
    obtain ⟨k1, ns⟩ := p
    unfold allSingleton at hs ih
    simp only [List.all_cons, Bool.and_eq_true] at hs
    by_cases h : k1 = k
    · subst h
      obtain ⟨n, hn⟩ := List.length_eq_one.mp (by simpa using hs.1)
      exact ⟨n, by simp [collGet, hn]⟩
    · have hc2 : collContains rest k = true := by
        simpa [collContains, h] using hc
      obtain ⟨n, hn⟩ := ih hs.2 hc2
      exact ⟨n, by simp [collGet, h, hn]⟩

/-- C10: registering an already-registered key raises `KeyError` (the
embedded `__setitem__` returns only the error, so the caller's registry
value is unchanged), a successful registration preserves the invariant
that every registered key holds exactly one node, and under that
invariant the first-element selection of `__getitem__` is defined for
every registered key. -/
theorem setitem_key_uniqueness {V : Type} (G G' : Graph V) (name : String)
    (node : TFNode) :
    (G.containsKey name = true →
      G.setitem name node =
        .error (.keyError ("\"" ++ name ++ "\" is already in the graph."))) ∧
    (allSingleton G.tfg.collections = true → G.setitem name node = .ok G' →
      allSingleton G'.tfg.collections = true) ∧
    (allSingleton G.tfg.collections = true → G.containsKey name = true →
      ∃ n, G.getitemS name = .ok n) := by
  refine ⟨?_, ?_, ?_⟩
  · intro h
    unfold Graph.setitem
    rw [if_pos h]
  · intro hs hok
    obtain ⟨hfresh, hfin, rfl⟩ := setitem_ok_elim G G' name node hok
    show allSingleton (collAdd G.tfg.collections name node) = true
    rw [collAdd_of_not_contains _ _ _ hfresh]
    unfold allSingleton at hs ⊢
    rw [List.all_append]
    simp [hs]
  · intro hs hc
    obtain ⟨n, hn⟩ := collGet_singleton G.tfg.collections name hs hc
    exact ⟨n, by simp [Graph.getitemS, hc, hn]⟩

/-- C10 witness: duplicate registration fails on a concrete graph, a
concrete fresh registration preserves the singleton invariant, and lookup
of the registered key is defined. -/
theorem setitem_key_uniqueness_witness :
    graphWithX.setitem "x" (TFNode.constI 2) =
      .error (.keyError ("\"" ++ "x" ++ "\" is already in the graph.")) ∧
    allSingleton graphWithY.tfg.collections = true ∧
    (∃ n, graphWithX.getitemS "x" = .ok n) :=
  ⟨(setitem_key_uniqueness graphWithX graphWithX "x" (TFNode.constI 2)).1 rfl,
   (setitem_key_uniqueness graphEmptyN graphWithY "y" (TFNode.constI 5)).2.1
     rfl rfl,
   (setitem_key_uniqueness graphWithX graphWithX "x" (TFNode.constI 2)).2.2
     rfl rfl⟩

/-! # C3 -/

/-- C3: `Model.update` is pass-through plumbing: with the optimizer op set
(and the loss it was created from), it builds the feed dict by calling the
`build_update_feed_dict` closure stored at construction on the model state
and the given arguments, performs exactly one session run fetching
`[optimizer_op, loss]` with that feed dict, and returns the loss result of
that run; without an optimizer op the assertion fails. -/
theorem update_is_passthrough {V A : Type} (m : Model V A) (opt_op l : TFNode)
    (args : List A) (fd : FeedDict V) :
    (m.optimizer_op = some opt_op → m.loss = some l →
      m.build_update_feed_dict m.attrs args = .ok fd →
      m.update args =
        .ok ({ m with G := { m.G with session :=
                 { oracle := m.G.session.oracle
                   log := m.G.session.log ++ [(.list [opt_op, l], fd)] } } },
             m.G.session.oracle l fd)) ∧
    (m.optimizer_op = none → m.update args = .error .assertionError) := by
  constructor
  · intro hop hl hfd
    have hfd2 : m.build_update_feed args = .ok fd := hfd
    unfold Model.update
    rw [hop, hfd2, hl]
    rfl
  · intro hop
    unfold Model.update
    rw [hop]

/-- C3 witness at a concrete model. -/
theorem update_is_passthrough_witness :
    modelU.update [] =
      .ok ({ modelU with G := { modelU.G with session :=
               { oracle := modelU.G.session.oracle
                 log := modelU.G.session.log ++
                   [(.list [optOp0, lossNode0], [])] } } },
           modelU.G.session.oracle lossNode0 []) :=
  (update_is_passthrough modelU optOp0 lossNode0 [] []).1 rfl rfl rfl

/-! # C5 -/

/-- C5: `Model.add_output` applies the network closure to the current
input node with the resolved `num_outputs`, registers the resulting node
under `output: + name`, and returns that node; `num_outputs` defaults to
the action-space dimension, which is `action_space.n` when that attribute
exists and `action_space.shape[0]` otherwise. -/
theorem add_output_applies_network {V A : Type} (m : Model V A)
    (network : Network) (name : String) (inp : TFNode) (k d : Nat)
    (ds : List Nat) (G' : Graph V) :
    (m.attrs.input_node = some inp →
      m.get_env_action_space_dimension = .ok k →
      Graph.setitem { m.G with tfg := (network m.G.tfg inp k).1 }
          ("output:" ++ name) (network m.G.tfg inp k).2 = .ok G' →
      m.add_output network none name =
        .ok ({ m with G := G' }, (network m.G.tfg inp k).2) ∧
      G'.getitemS ("output:" ++ name) = .ok (network m.G.tfg inp k).2) ∧
    (m.env.action_space.n = some d → m.get_env_action_space_dimension = .ok d) ∧
    (m.env.action_space.n = none → m.env.action_space.shape = d :: ds →
      m.get_env_action_space_dimension = .ok d) := by
  refine ⟨?_, ?_, ?_⟩
  · intro hin hdim hreg
    refine ⟨?_, (getitem_after_setitem _ G' _ _ hreg).1⟩
    simp only [Model.add_output, hdim, hin, exceptPure, exceptBind_ok,
      exceptBind_error, hreg]
  · intro hn
    unfold Model.get_env_action_space_dimension
    rw [hn]
  · intro hn hs
    unfold Model.get_env_action_space_dimension
    rw [hn, hs]

/-- C5 witness at a concrete model and network. -/
theorem add_output_applies_network_witness :
    modelO.add_output (constNetwork outNode0) none "" =
      .ok ({ modelO with G := graphO },
        (constNetwork outNode0 modelO.G.tfg inputNode0 1).2) ∧
    graphO.getitemS ("output:" ++ "") =
      .ok (constNetwork outNode0 modelO.G.tfg inputNode0 1).2 :=
  (add_output_applies_network modelO (constNetwork outNode0) "" inputNode0
      1 1 [] graphO).1 rfl rfl rfl

/-! # C9 -/

/-- C9: `Model.predict` accepts both single samples and batches: a
1-dimensional input is expanded to a single-row 2-dimensional batch
before being fed to the input placeholder looked up under `input_name`,
and the returned prediction is the flattened (hence always
1-dimensional) result of the session run on the `output_name` node. -/
theorem predict_single_and_batch {α A : Type} (m : Model (NDArray α) A)
    (data : NDArray α) (output_name input_name : String) (out inp : TFNode)
    (hout : m.G.getitemS output_name = .ok out)
    (hinp : m.G.getitemS input_name = .ok inp) :
    m.predict data output_name input_name =
      .ok ({ m with G := { m.G with session :=
               { oracle := m.G.session.oracle
                 log := m.G.session.log ++ [(.single out,
                   [(inp, if data.shape.length = 1 then data.expand_dims0
                          else data)])] } } },
           (m.G.session.oracle out
             [(inp, if data.shape.length = 1 then data.expand_dims0
                    else data)]).flatten) ∧
    (data.shape.length = 1 →
      (if data.shape.length = 1 then data.expand_dims0 else data).shape =
        1 :: data.shape) ∧
    ((m.G.session.oracle out
        [(inp, if data.shape.length = 1 then data.expand_dims0 else data)]
      ).flatten).shape.length = 1 := by
  refine ⟨?_, ?_, ?_⟩
  · simp only [Model.predict, hout, hinp, exceptPure, exceptBind_ok,
      exceptBind_error, Graph.callSingle, Session.runSingle]
  · intro h1
    simp [h1, NDArray.expand_dims0]
  · simp [NDArray.flatten]

/-- C9 witness: predicting on a concrete 1-dimensional sample. -/
theorem predict_single_and_batch_witness :
    modelP.predict dataRow "output:" "input:" =
      .ok ({ modelP with G := { modelP.G with session :=
               { oracle := modelP.G.session.oracle
                 log := modelP.G.session.log ++ [(.single outNode0,
                   [(inputNode0, if dataRow.shape.length = 1
                                 then dataRow.expand_dims0 else dataRow)])] } } },
           (modelP.G.session.oracle outNode0
             [(inputNode0, if dataRow.shape.length = 1
                           then dataRow.expand_dims0 else dataRow)]).flatten) :=
  (predict_single_and_batch modelP dataRow "output:" "input:" outNode0
      inputNode0 rfl rfl).1

/-! # C6 -/

/-- C6: `Model.__init__` stores the env, creates a fresh graph and
session, and inside the graph context calls the supplied `build_graph`
closure on the model itself, then `create_weight_setter_ops`, then stores
the supplied `build_update_feed_dict`; on exit from the context all
global variables are initialized in one session run and the graph is
finalized.  (Entering the context, `as_default`, only selects the ambient
framework graph and has no further observable effect in this embedding.) -/
theorem model_init_sequence {V A : Type} (env : Env)
    (build_graph : Model V A → Except PyError (Model V A))
    (bufd : ModelAttrs → List A → Except PyError (FeedDict V))
    (oracle : TFNode → FeedDict V → V) (m1 m2 : Model V A)
    (hbg : build_graph
      { env := env
        G := { tfg := TFGraph.empty, session := { oracle := oracle, log := [] } }
        loss := none
        optimizer := none
        optimizer_op := none
        attrs := ModelAttrs.empty
        build_update_feed_dict := unsetBuildUpdateFeedDict } = .ok m1)
    (hws : m1.create_weight_setter_ops = .ok m2) :
    Model.init env build_graph bufd oracle =
      .ok { m2 with
        build_update_feed_dict := bufd
        G := { tfg := { m2.G.tfg with finalized := true }
               session := { oracle := m2.G.session.oracle
                            log := m2.G.session.log ++
                              [(.single (variablesInitializer
                                  m2.G.GLOBAL_VARIABLES), [])] } } } := by
  simp only [Model.init, hbg, hws, exceptBind_ok, exceptBind_error, exceptPure,
    Graph.GLOBAL_VARIABLES, Session.runSingle]

/-- C6 witness: a trivial `build_graph` closure on the trivial env. -/
theorem model_init_sequence_witness :
    Model.init envTrivial (fun m => .ok m) bufdTrivN oracleZero =
      .ok { modelInit0 with
        build_update_feed_dict := bufdTrivN
        G := { tfg := { modelInit0.G.tfg with finalized := true }
               session := { oracle := modelInit0.G.session.oracle
                            log := modelInit0.G.session.log ++
                              [(.single (variablesInitializer
                                  modelInit0.G.GLOBAL_VARIABLES), [])] } } } :=
  model_init_sequence envTrivial (fun m => .ok m) bufdTrivN oracleZero
    modelInit0 modelInit0 rfl rfl

/-! # String key lemmas

The registry keys used by the weight plumbing (`weight_input_var: + name`,
`set_weight_op: + name`, and the framework variable-collection keys) are
pairwise distinguishable by their first character, and appending to a
fixed prefix is injective.  All proofs go through `String.data`. -/

theorem wiv_inj (a b : String)
    (h : ("weight_input_var:" ++ a) = ("weight_input_var:" ++ b)) : a = b := by
  have h2 : a.data = b.data := by
    calc a.data = ("weight_input_var:" ++ a).data.drop 17 := rfl
      _ = ("weight_input_var:" ++ b).data.drop 17 := by rw [h]
      _ = b.data := rfl
  cases a
  cases b
  exact congrArg String.mk h2

theorem swo_inj (a b : String)
    (h : ("set_weight_op:" ++ a) = ("set_weight_op:" ++ b)) : a = b := by
  have h2 : a.data = b.data := by
    calc a.data = ("set_weight_op:" ++ a).data.drop 14 := rfl
      _ = ("set_weight_op:" ++ b).data.drop 14 := by rw [h]
      _ = b.data := rfl
  cases a
  cases b
  exact congrArg String.mk h2

theorem wiv_ne_swo (a b : String) :
    ("weight_input_var:" ++ a) ≠ ("set_weight_op:" ++ b) := by
  intro h
  have h2 : some 'w' = some 's' := by
    calc some 'w' = ("weight_input_var:" ++ a).data.head? := rfl
      _ = ("set_weight_op:" ++ b).data.head? := by rw [h]
      _ = some 's' := rfl
  simp at h2

theorem train_ne_wiv (a : String) :
    TRAINABLE_VARIABLES_KEY ≠ ("weight_input_var:" ++ a) := by
  intro h
  have h2 : some 't' = some 'w' := by
    calc some 't' = TRAINABLE_VARIABLES_KEY.data.head? := rfl
      _ = ("weight_input_var:" ++ a).data.head? := by rw [h]
      _ = some 'w' := rfl
  simp at h2

theorem train_ne_swo (a : String) :
    TRAINABLE_VARIABLES_KEY ≠ ("set_weight_op:" ++ a) := by
  intro h
  have h2 : some 't' = some 's' := by
    calc some 't' = TRAINABLE_VARIABLES_KEY.data.head? := rfl
      _ = ("set_weight_op:" ++ a).data.head? := by rw [h]
      _ = some 's' := rfl
  simp at h2

/-! # C4 machinery -/

theorem collContains_of_collGet_ne_nil (c : Collections) (k : String)
    (h : collGet c k ≠ []) : collContains c k = true := by
  cases hc : collContains c k
  · exact absurd (collGet_eq_nil_of_not_contains c k hc) h
  · rfl

theorem collGet_append_of_right_not_contains (c1 c2 : Collections) (k : String)
    (h : collContains c2 k = false) : collGet (c1 ++ c2) k = collGet c1 k := by
  rw [collGet_append]
  cases hc : collContains c1 k
  · simp [collGet_eq_nil_of_not_contains c1 k hc,
      collGet_eq_nil_of_not_contains c2 k h]
  · simp

theorem setitem_ok_of_fresh {V : Type} (G : Graph V) (name : String)
    (node : TFNode) (hfresh : G.containsKey name = false)
    (hfin : G.tfg.finalized = false) :
    G.setitem name node =
      .ok { G with tfg := { G.tfg with
        collections := G.tfg.collections ++ [(name, [node])] } } := by
  unfold Graph.setitem
  rw [if_neg (by simp [hfresh]), if_neg (by simp [hfin]),
    collAdd_of_not_contains _ _ _ hfresh]

theorem weightSetterFold_eq {V : Type} (G : Graph V) (ws : List TFNode)
    (hfin : G.tfg.finalized = false)
    (hnodup : (ws.map TFNode.tfname).Nodup)
    (hfresh : ∀ w ∈ ws,
      G.containsKey ("weight_input_var:" ++ w.tfname) = false ∧
      G.containsKey ("set_weight_op:" ++ w.tfname) = false) :
    weightSetterFold G ws =
      .ok { G with tfg := { G.tfg with
        collections := G.tfg.collections ++ weightPairs ws } } := by
  induction ws generalizing G with
  | nil =>
    simp only [weightSetterFold, weightPairs, List.append_nil]
  | cons w ws ih =>
    rw [List.map_cons, List.nodup_cons] at hnodup
    obtain ⟨hnm, hnd⟩ := hnodup
    obtain ⟨hf1, hf2⟩ := hfresh w (List.mem_cons_self w ws)
    have hs1 := setitem_ok_of_fresh G ("weight_input_var:" ++ w.tfname)
      (weightInputVar w) hf1 hfin
    have hc2 : Graph.containsKey (V := V) { G with tfg := { G.tfg with
        collections := G.tfg.collections ++
          [("weight_input_var:" ++ w.tfname, [weightInputVar w])] } }
        ("set_weight_op:" ++ w.tfname) = false := by
      show collContains (G.tfg.collections ++
        [("weight_input_var:" ++ w.tfname, [weightInputVar w])])
        ("set_weight_op:" ++ w.tfname) = false
      rw [collContains_append]
      have hf2c : collContains G.tfg.collections
          ("set_weight_op:" ++ w.tfname) = false := hf2
      have hne := (wiv_ne_swo w.tfname w.tfname)
      simp [collContains, hf2c, hne]
    have hs2 := setitem_ok_of_fresh _ ("set_weight_op:" ++ w.tfname)
      (TFNode.assign w (weightInputVar w)) hc2 hfin
    have hfresh2 : ∀ w2 ∈ ws,
        Graph.containsKey (V := V) { G with tfg := { G.tfg with
          collections := (G.tfg.collections ++
            [("weight_input_var:" ++ w.tfname, [weightInputVar w])]) ++
            [("set_weight_op:" ++ w.tfname,
              [TFNode.assign w (weightInputVar w)])] } }
          ("weight_input_var:" ++ w2.tfname) = false ∧
        Graph.containsKey (V := V) { G with tfg := { G.tfg with
          collections := (G.tfg.collections ++
            [("weight_input_var:" ++ w.tfname, [weightInputVar w])]) ++
            [("set_weight_op:" ++ w.tfname,
              [TFNode.assign w (weightInputVar w)])] } }
          ("set_weight_op:" ++ w2.tfname) = false := by
      intro w2 hw2
      have hmemname : w2.tfname ∈ ws.map TFNode.tfname :=
        List.mem_map_of_mem TFNode.tfname hw2
      have hname : ¬(w.tfname = w2.tfname) := by
        intro hh
        rw [hh] at hnm
        exact hnm hmemname
      obtain ⟨hg1, hg2⟩ := hfresh w2 (List.mem_cons_of_mem w hw2)
      constructor
      · show collContains _ _ = false
        rw [collContains_append, collContains_append]
        have hne1 : ¬("weight_input_var:" ++ w.tfname =
            "weight_input_var:" ++ w2.tfname) :=
          fun hh => hname (wiv_inj _ _ hh)
        have hne2 : ¬("set_weight_op:" ++ w.tfname =
            "weight_input_var:" ++ w2.tfname) :=
          Ne.symm (wiv_ne_swo w2.tfname w.tfname)
        have hg1c : collContains G.tfg.collections
            ("weight_input_var:" ++ w2.tfname) = false := hg1
        simp [collContains, hg1c, hne1, hne2]
      · show collContains _ _ = false
        rw [collContains_append, collContains_append]
        have hne1 : ¬("weight_input_var:" ++ w.tfname =
            "set_weight_op:" ++ w2.tfname) := wiv_ne_swo w.tfname w2.tfname
        have hne2 : ¬("set_weight_op:" ++ w.tfname =
            "set_weight_op:" ++ w2.tfname) :=
          fun hh => hname (swo_inj _ _ hh)
        have hg2c : collContains G.tfg.collections
            ("set_weight_op:" ++ w2.tfname) = false := hg2
        simp [collContains, hg2c, hne1, hne2]
    have ihres := ih _ (by exact hfin) hnd hfresh2
    simp only [weightSetterFold, hs1, exceptBind_ok, hs2, ihres, exceptPure,
      weightPairs]
    simp [List.append_assoc, setWeightOp, weightInputVar]

theorem collGet_weightPairs_wiv (ws : List TFNode) (w : TFNode) (hw : w ∈ ws)
    (hnodup : (ws.map TFNode.tfname).Nodup) :
    collGet (weightPairs ws) ("weight_input_var:" ++ w.tfname) =
      [weightInputVar w] := by
  induction ws with
  | nil => cases hw
  | cons w1 ws ih =>
    rw [List.map_cons, List.nodup_cons] at hnodup
    obtain ⟨hnm, hnd⟩ := hnodup
    cases hw with
    | head => simp [weightPairs, collGet]
    | tail _ hmem =>
      have hne1 : ¬("weight_input_var:" ++ w1.tfname =
          "weight_input_var:" ++ w.tfname) := by
        intro hh
        have hmm : w.tfname ∈ ws.map TFNode.tfname :=
          List.mem_map_of_mem TFNode.tfname hmem
        rw [← wiv_inj _ _ hh] at hmm
        exact hnm hmm
      have hne2 : ¬("set_weight_op:" ++ w1.tfname =
          "weight_input_var:" ++ w.tfname) :=
        Ne.symm (wiv_ne_swo w.tfname w1.tfname)
      simp [weightPairs, collGet, hne1, hne2, ih hmem hnd]

theorem collGet_weightPairs_swo (ws : List TFNode) (w : TFNode) (hw : w ∈ ws)
    (hnodup : (ws.map TFNode.tfname).Nodup) :
    collGet (weightPairs ws) ("set_weight_op:" ++ w.tfname) =
      [setWeightOp w] := by
  induction ws with
  | nil => cases hw
  | cons w1 ws ih =>
    rw [List.map_cons, List.nodup_cons] at hnodup
    obtain ⟨hnm, hnd⟩ := hnodup
    cases hw with
    | head => simp [weightPairs, collGet, wiv_ne_swo w.tfname w.tfname]
    | tail _ hmem =>
      have hne1 : ¬("weight_input_var:" ++ w1.tfname =
          "set_weight_op:" ++ w.tfname) := wiv_ne_swo w1.tfname w.tfname
      have hne2 : ¬("set_weight_op:" ++ w1.tfname =
          "set_weight_op:" ++ w.tfname) := by
        intro hh
        have hmm : w.tfname ∈ ws.map TFNode.tfname :=
          List.mem_map_of_mem TFNode.tfname hmem
        rw [← swo_inj _ _ hh] at hmm
        exact hnm hmm
      simp [weightPairs, collGet, hne1, hne2, ih hmem hnd]

theorem collContains_weightPairs_train (ws : List TFNode) :
    collContains (weightPairs ws) TRAINABLE_VARIABLES_KEY = false := by
  induction ws with
  | nil => rfl
  | cons w ws ih =>
    have h1 : ¬("weight_input_var:" ++ w.tfname = TRAINABLE_VARIABLES_KEY) :=
      Ne.symm (train_ne_wiv w.tfname)
    have h2 : ¬("set_weight_op:" ++ w.tfname = TRAINABLE_VARIABLES_KEY) :=
      Ne.symm (train_ne_swo w.tfname)
    simp [weightPairs, collContains, h1, h2, ih]

theorem feedFromNames_eq {V : Type} (Gf : Graph V) (sel : List TFNode)
    (vals : List V)
    (hlook : ∀ w ∈ sel,
      Gf.getitemS ("weight_input_var:" ++ w.tfname) = .ok (weightInputVar w))
    (hlen : vals.length = sel.length) :
    feedFromNames Gf ((sel.map TFNode.tfname).zip vals) =
      .ok ((sel.map weightInputVar).zip vals) := by
  induction sel generalizing vals with
  | nil => simp [feedFromNames]
  | cons w sel ih =>
    cases vals with
    | nil => simp at hlen
    | cons v vals =>
      have h1 := hlook w (List.mem_cons_self w sel)
      have ih2 := ih vals (fun w2 hw2 => hlook w2 (List.mem_cons_of_mem w hw2))
        (by simpa using hlen)
      rw [List.map_cons, List.map_cons, List.zip_cons_cons, List.zip_cons_cons]
      simp only [feedFromNames, h1, exceptBind_ok, ih2, exceptPure]

theorem opsFromNames_eq {V : Type} (Gf : Graph V) (sel : List TFNode)
    (vals : List V)
    (hlook : ∀ w ∈ sel,
      Gf.getitemS ("set_weight_op:" ++ w.tfname) = .ok (setWeightOp w))
    (hlen : vals.length = sel.length) :
    opsFromNames Gf ((sel.map TFNode.tfname).zip vals) =
      .ok (sel.map setWeightOp) := by
  induction sel generalizing vals with
  | nil => simp [opsFromNames]
  | cons w sel ih =>
    cases vals with
    | nil => simp at hlen
    | cons v vals =>
      have h1 := hlook w (List.mem_cons_self w sel)
      have ih2 := ih vals (fun w2 hw2 => hlook w2 (List.mem_cons_of_mem w hw2))
        (by simpa using hlen)
      rw [List.map_cons, List.zip_cons_cons]
      simp only [opsFromNames, h1, exceptBind_ok, ih2, exceptPure, List.map_cons]

/-! # C4 -/

/-- C4: `create_weight_setter_ops` registers, for every trainable variable
`w`, a placeholder defaulting to `w` under `weight_input_var: + w.name`
and an assign op under `set_weight_op: + w.name`, leaving the trainable
variable collection unchanged; the weights setter, given a name-to-value
mapping over trainable names, looks up exactly those two collections for
every name in the mapping and runs all the corresponding set-weight ops
in one session run, feeding each value to its placeholder; `set_weights`
delegates to the setter on the mapping of all weight names to the given
values.  The hypotheses state that the weight keys are not yet registered,
the variable names are distinct, and the graph is not finalized, which is
the state during `Model.__init__`. -/
theorem weight_setter_plumbing {V A : Type} (m m' : Model V A)
    (sel : List TFNode) (vals : List V)
    (hfin : m.G.tfg.finalized = false)
    (hnodup : (m.weights.map TFNode.tfname).Nodup)
    (hfresh : ∀ w ∈ m.weights,
      m.G.containsKey ("weight_input_var:" ++ w.tfname) = false ∧
      m.G.containsKey ("set_weight_op:" ++ w.tfname) = false)
    (hws : m.create_weight_setter_ops = .ok m') :
    (∀ w ∈ m.weights,
      m'.G.getitemS ("weight_input_var:" ++ w.tfname) =
        .ok (weightInputVar w) ∧
      m'.G.getitemS ("set_weight_op:" ++ w.tfname) = .ok (setWeightOp w)) ∧
    m'.weights = m.weights ∧
    (vals.length = sel.length → (∀ w ∈ sel, w ∈ m.weights) →
      m'.setWeightsDict ((sel.map TFNode.tfname).zip vals) =
        .ok { m' with G := { m'.G with session :=
          { oracle := m'.G.session.oracle
            log := m'.G.session.log ++
              [(.list (sel.map setWeightOp),
                (sel.map weightInputVar).zip vals)] } } }) ∧
    m'.set_weights vals =
      m'.setWeightsDict ((m'.weights.map TFNode.tfname).zip vals) := by
  have hfold := weightSetterFold_eq m.G m.weights hfin hnodup hfresh
  have hm' : m' = { m with G := { m.G with tfg := { m.G.tfg with
      collections := m.G.tfg.collections ++ weightPairs m.weights } } } := by
    unfold Model.create_weight_setter_ops at hws
    rw [hfold, exceptBind_ok, exceptPure] at hws
    exact (Except.ok.inj hws).symm
  subst hm'
  have hA : ∀ w ∈ m.weights,
      Graph.getitemS (V := V) { m.G with tfg := { m.G.tfg with
        collections := m.G.tfg.collections ++ weightPairs m.weights } }
        ("weight_input_var:" ++ w.tfname) = .ok (weightInputVar w) ∧
      Graph.getitemS (V := V) { m.G with tfg := { m.G.tfg with
        collections := m.G.tfg.collections ++ weightPairs m.weights } }
        ("set_weight_op:" ++ w.tfname) = .ok (setWeightOp w) := by
    intro w hw
    obtain ⟨hg1, hg2⟩ := hfresh w hw
    have hg1c : collContains m.G.tfg.collections
        ("weight_input_var:" ++ w.tfname) = false := hg1
    have hg2c : collContains m.G.tfg.collections
        ("set_weight_op:" ++ w.tfname) = false := hg2
    have hwp1 := collGet_weightPairs_wiv m.weights w hw hnodup
    have hwp2 := collGet_weightPairs_swo m.weights w hw hnodup
    have hget1 : collGet (m.G.tfg.collections ++ weightPairs m.weights)
        ("weight_input_var:" ++ w.tfname) = [weightInputVar w] := by
      rw [collGet_append, hg1c]
      simp [hwp1]
    have hget2 : collGet (m.G.tfg.collections ++ weightPairs m.weights)
        ("set_weight_op:" ++ w.tfname) = [setWeightOp w] := by
      rw [collGet_append, hg2c]
      simp [hwp2]
    have hcont1 : collContains
        (m.G.tfg.collections ++ weightPairs m.weights)
        ("weight_input_var:" ++ w.tfname) = true := by
      rw [collContains_append, hg1c]
      simp [collContains_of_collGet_ne_nil _ _ (by rw [hwp1]; simp)]
    have hcont2 : collContains
        (m.G.tfg.collections ++ weightPairs m.weights)
        ("set_weight_op:" ++ w.tfname) = true := by
      rw [collContains_append, hg2c]
      simp [collContains_of_collGet_ne_nil _ _ (by rw [hwp2]; simp)]
    constructor
    · simp [Graph.getitemS, Graph.containsKey, hcont1, hget1]
    · simp [Graph.getitemS, Graph.containsKey, hcont2, hget2]
  have hB : collGet (m.G.tfg.collections ++ weightPairs m.weights)
      TRAINABLE_VARIABLES_KEY =
      collGet m.G.tfg.collections TRAINABLE_VARIABLES_KEY :=
    collGet_append_of_right_not_contains _ _ _
      (collContains_weightPairs_train m.weights)
  refine ⟨hA, hB, ?_, rfl⟩
  intro hlen hsel
  have hfeed := feedFromNames_eq _ sel vals
    (fun w hw => (hA w (hsel w hw)).1) hlen
  have hops := opsFromNames_eq _ sel vals
    (fun w hw => (hA w (hsel w hw)).2) hlen
  simp only [Model.setWeightsDict, hfeed, hops, exceptBind_ok, exceptPure,
    Graph.callList, Session.runList]

/-- C4 witness: a concrete model with two trainable variables; one of them
is then set through the weights setter. -/
theorem weight_setter_plumbing_witness :
    (modelWAfter.G.getitemS ("weight_input_var:" ++ trainVarA.tfname) =
       .ok (weightInputVar trainVarA) ∧
     modelWAfter.G.getitemS ("set_weight_op:" ++ trainVarA.tfname) =
       .ok (setWeightOp trainVarA)) ∧
    modelWAfter.setWeightsDict (([trainVarA].map TFNode.tfname).zip [7]) =
      .ok { modelWAfter with G := { modelWAfter.G with session :=
        { oracle := modelWAfter.G.session.oracle
          log := modelWAfter.G.session.log ++
            [(.list ([trainVarA].map setWeightOp),
              ([trainVarA].map weightInputVar).zip [7])] } } } :=
  ⟨(weight_setter_plumbing modelW modelWAfter [trainVarA] [7] rfl (by decide)
      (by decide) rfl).1 trainVarA (List.mem_cons_self _ _),
   (weight_setter_plumbing modelW modelWAfter [trainVarA] [7] rfl (by decide)
      (by decide) rfl).2.2.1 rfl
     (fun w hw => by
        rw [List.mem_singleton] at hw
        subst hw
        exact List.mem_cons_self _ _)⟩

/-! # C8 -/

set_option maxHeartbeats 12000000

/-- C8: `policy_gradient_model_factory` (with its default network, the
`fully_connected` layer, its default learning rate, and a concrete
environment with `action_space.n = 2`, action bounds `[-2, 2]` and
3-dimensional observations) raises a `ValueError` if and only if its
`action_space` argument is neither `discrete` nor `continuous`; for
`discrete` it returns a constructed model whose registered output is the
softmax layer over the `n = 2` actions, and for `continuous` a
constructed model whose action node (also its registered output) is a
sample of the Gaussian built from two layer heads, clipped to the action
bounds. -/
theorem pg_factory_valueerror_iff (as : String) :
    ((∃ msg, policy_gradient_model_factory
        (⟨⟨some 2, [], [-2], [2]⟩, ⟨[3]⟩⟩ : Env)
        fully_connected "0.01" as oracleND = .error (.valueError msg)) ↔
      (as ≠ "discrete" ∧ as ≠ "continuous")) ∧
    (∃ mD, policy_gradient_model_factory
        (⟨⟨some 2, [], [-2], [2]⟩, ⟨[3]⟩⟩ : Env)
        fully_connected "0.01" "discrete" oracleND = .ok mD ∧
      mD.G.getitemS "output:" =
        .ok (TFNode.fcApp "fully_connected" "softmax"
          (TFNode.placeholder "float32" [Option.none, some 3] "") 2)) ∧
    (∃ mC, policy_gradient_model_factory
        (⟨⟨some 2, [], [-2], [2]⟩, ⟨[3]⟩⟩ : Env)
        fully_connected "0.01" "continuous" oracleND = .ok mC ∧
      mC.attrs.action = some (TFNode.op "clip_by_value"
        [TFNode.op "squeeze" [TFNode.op "sample_1" [TFNode.op "Normal"
            [TFNode.fcApp "fully_connected" "nil"
              (TFNode.placeholder "float32" [Option.none, some 3] "") 2,
             TFNode.fcApp "fully_connected_1" "nil"
              (TFNode.placeholder "float32" [Option.none, some 3] "") 2]]],
         TFNode.constI (-2), TFNode.constI 2]) ∧
      mC.G.getitemS "output:" = .ok (TFNode.op "clip_by_value"
        [TFNode.op "squeeze" [TFNode.op "sample_1" [TFNode.op "Normal"
            [TFNode.fcApp "fully_connected" "nil"
              (TFNode.placeholder "float32" [Option.none, some 3] "") 2,
             TFNode.fcApp "fully_connected_1" "nil"
              (TFNode.placeholder "float32" [Option.none, some 3] "") 2]]],
         TFNode.constI (-2), TFNode.constI 2])) := by
  refine ⟨⟨?_, ?_⟩, ⟨_, rfl, rfl⟩, ⟨_, rfl, rfl, rfl⟩⟩
  · rintro ⟨msg, hmsg⟩
    refine ⟨?_, ?_⟩
    · intro hd
      subst hd
      obtain ⟨mD, hmD⟩ : ∃ mD, policy_gradient_model_factory
          (⟨⟨some 2, [], [-2], [2]⟩, ⟨[3]⟩⟩ : Env)
          fully_connected "0.01" "discrete" oracleND = .ok mD := ⟨_, rfl⟩
      rw [hmD] at hmsg
      cases hmsg
    · intro hc
      subst hc
      obtain ⟨mC, hmC⟩ : ∃ mC, policy_gradient_model_factory
          (⟨⟨some 2, [], [-2], [2]⟩, ⟨[3]⟩⟩ : Env)
          fully_connected "0.01" "continuous" oracleND = .ok mC := ⟨_, rfl⟩
      rw [hmC] at hmsg
      cases hmsg
  · rintro ⟨h1, h2⟩
    refine ⟨as ++ " is not a valid action_space", ?_⟩
    simp [policy_gradient_model_factory, Model.init, pg_build_graph,
      Model.add_input, Graph.setitem, Graph.containsKey, collContains,
      collAdd, TFGraph.empty, exceptBind_ok, exceptBind_error, exceptPure,
      h1, h2]

/-- C8 witness: an invalid action space raises the `ValueError`, and the
discrete case at the same environment constructs a model. -/
theorem pg_factory_valueerror_iff_witness :
    (∃ msg, policy_gradient_model_factory
        (⟨⟨some 2, [], [-2], [2]⟩, ⟨[3]⟩⟩ : Env)
        fully_connected "0.01" "bogus" oracleND = .error (.valueError msg)) ∧
    (∃ mD, policy_gradient_model_factory
        (⟨⟨some 2, [], [-2], [2]⟩, ⟨[3]⟩⟩ : Env)
        fully_connected "0.01" "discrete" oracleND = .ok mD ∧
      mD.G.getitemS "output:" =
        .ok (TFNode.fcApp "fully_connected" "softmax"
          (TFNode.placeholder "float32" [Option.none, some 3] "") 2)) :=
  ⟨(pg_factory_valueerror_iff "bogus").1.mpr ⟨by decide, by decide⟩,
   (pg_factory_valueerror_iff "bogus").2.1⟩

end Yarlp
